import Mathlib

/-!
Verification of the temporal-worker deployment-reconciliation and
trigger-dispatch subsystem.

The definitions below are a shallow embedding of the TypeScript sources:

* `src/types` (part 005)        — configuration records and `getWorkerKey`
* `src/triggers/webhook.trigger.ts` — shared route table, start/stop,
  request handler, header sanitization
* `src/triggers/polling.trigger.ts` — probe check and poll cycle
* `src/triggers/schedule.trigger.ts` / manual trigger (in `src/index.ts`)
* `src/workers/manager.ts`      — worker pool: register / restart
* `src/services/watcher.ts` (part 001) and `src/services/minio.ts`
  (part 002) — the sync diff algorithm

JavaScript `Map`s are modelled as association lists with first-match
lookup, in-place replacement on `set` of an existing key, and append on
`set` of a fresh key — matching the insertion-order semantics of `Map`.
External effects (the artifact store, the execution engine, timers,
`Date.now`) enter as explicit parameters; calls made to the execution
engine are returned as lists of `EngineCall` values so that theorems can
talk about which runs were started.
-/

namespace TemporalWorker

/-- Trigger discriminator, from `TriggerType` in `src/types`. -/
inductive TriggerType where
  | schedule
  | polling
  | webhook
  | manual
  deriving DecidableEq, Repr

/-- `RegisteredWorkflow` from `src/types` (the trigger config is carried
separately by each trigger variant; `nspace` models the `namespace`
field, which is a reserved word in Lean). -/
structure RegisteredWorkflow where
  name : String
  nspace : String
  taskQueue : String
  triggerType : TriggerType
  deriving DecidableEq, Repr

/-- `getWorkerKey` from `src/types`. -/
def getWorkerKey (nspace taskQueue : String) : String :=
  nspace ++ ":" ++ taskQueue

/-! ## JavaScript `Map` as an association list -/

/-- `Map.get`: first entry with the given key. -/
def mapLookup {α : Type} : List (String × α) → String → Option α
  | [], _ => none
  | (k, v) :: rest, key => if k = key then some v else mapLookup rest key

/-- `Map.set`: replace in place if the key exists, append otherwise. -/
def mapSet {α : Type} : List (String × α) → String → α → List (String × α)
  | [], key, v => [(key, v)]
  | (k, w) :: rest, key, v =>
      if k = key then (key, v) :: rest else (k, w) :: mapSet rest key v

/-- Keys of the map, in insertion order. -/
def mapKeys {α : Type} (m : List (String × α)) : List String :=
  m.map Prod.fst

/-! ## Webhook trigger (`src/triggers/webhook.trigger.ts`)

The process-wide shared Express app is modelled by `WebhookServerState`:
the router's registered routes (in registration order — Express dispatches
a request to the first matching route, and the handlers never call
`next()`), the `registeredTriggers` counter and whether `serverInstance`
is live.  A handler closure captures the trigger's workflow and parsed
config, which is what a `Route` entry records. -/

/-- HTTP methods accepted by `WebhookTriggerConfigSchema`. -/
inductive HttpMethod where
  | get
  | post
  | put
  | delete
  deriving DecidableEq, Repr

/-- `WebhookAuthConfigSchema` from `src/types`. -/
inductive AuthScheme where
  | bearer
  | apiKey
  | basic
  deriving DecidableEq, Repr

structure WebhookAuthConfig where
  scheme : AuthScheme
  token : String
  headerName : Option String
  deriving DecidableEq, Repr

/-- `WebhookTriggerConfigSchema` from `src/types` (`method` defaults to
POST and `auth` is optional, both applied by the zod schema). -/
structure WebhookTriggerConfig where
  path : String
  method : HttpMethod
  auth : Option WebhookAuthConfig
  deriving DecidableEq, Repr

/-- One registered route of the shared router: the closure created by
`createHandler` captures the trigger's workflow and config. -/
structure Route where
  method : HttpMethod
  path : String
  workflow : RegisteredWorkflow
  cfg : WebhookTriggerConfig
  deriving DecidableEq, Repr

/-- The module-level mutable state of `webhook.trigger.ts`
(`sharedRouter`, `serverInstance`, `registeredTriggers`). -/
structure WebhookServerState where
  routes : List Route
  registeredTriggers : Int
  serverUp : Bool
  deriving DecidableEq, Repr

/-- Per-instance state of a `WebhookTrigger`. -/
structure WebhookTriggerState where
  workflow : RegisteredWorkflow
  cfg : WebhookTriggerConfig
  isRunning : Bool
  deriving DecidableEq, Repr

/-- `WebhookTrigger.start`: early-return when already running; otherwise
register the (method, path) route on the shared router, bump the
trigger count, make sure the server listens, and flip the flag.
`router.get/post/put/delete` appends a layer, so registration order is
preserved. -/
def webhookStart (t : WebhookTriggerState) (g : WebhookServerState) :
    WebhookTriggerState × WebhookServerState :=
  if t.isRunning then (t, g)
  else
    let route : Route :=
      { method := t.cfg.method, path := t.cfg.path, workflow := t.workflow, cfg := t.cfg }
    let g' : WebhookServerState :=
      { routes := g.routes ++ [route]
        registeredTriggers := g.registeredTriggers + 1
        serverUp := true }
    ({ t with isRunning := true }, g')

/-- `stopServer`: closes the server (nulling `sharedApp`/`sharedRouter`,
which discards the route table) only when it is up and no trigger is
registered any more. -/
def stopServer (g : WebhookServerState) : WebhookServerState :=
  if g.serverUp ∧ g.registeredTriggers = 0 then
    { routes := [], registeredTriggers := g.registeredTriggers, serverUp := false }
  else g

/-- `WebhookTrigger.stop`: early-return when not running; otherwise
decrement the trigger count, clear the flag and call `stopServer`.
Note that the route itself is never removed from the router. -/
def webhookStop (t : WebhookTriggerState) (g : WebhookServerState) :
    WebhookTriggerState × WebhookServerState :=
  if ¬ t.isRunning then (t, g)
  else
    let g' : WebhookServerState :=
      { g with registeredTriggers := g.registeredTriggers - 1 }
    ({ t with isRunning := false }, stopServer g')

/-! ### Request handling -/

/-- An inbound HTTP request as the handler sees it. -/
structure HttpRequest where
  method : HttpMethod
  path : String
  body : String
  query : List (String × String)
  headers : List (String × String)
  deriving DecidableEq, Repr

/-- The payload assembled by `WebhookTrigger.startWorkflow`. -/
structure WebhookPayload where
  body : String
  query : List (String × String)
  headers : List (String × String)
  timestamp : String
  deriving DecidableEq, Repr

/-- A `client.workflow.start` invocation observed at the execution-engine
client boundary. -/
structure EngineCall where
  nspace : String
  workflowType : String
  taskQueue : String
  workflowId : String
  webhookArgs : List WebhookPayload
  deriving DecidableEq, Repr

/-- `key.toLowerCase()`: character-wise lowering of the header name
(same as `String.toLower`, written out so the kernel can evaluate it). -/
def lowerString (s : String) : String := ⟨s.data.map Char.toLower⟩

/-- `sanitizeHeaders`: drop every header whose lower-cased name is one of
the sensitive ones, keeping the rest in order. -/
def sensitiveHeaders : List String := ["authorization", "cookie", "x-api-key"]

def sanitizeHeaders (headers : List (String × String)) : List (String × String) :=
  headers.filter (fun p => ¬ sensitiveHeaders.contains (lowerString p.fst))

/-- `WebhookTrigger.startWorkflow` for a handler whose closure holds
workflow `w` (the parsed config is never consulted here): builds the
payload, starts the run and returns the generated id.  The id generator
and clock are passed in (`wid`, `now`). -/
def webhookStartWorkflow (w : RegisteredWorkflow) (body : String)
    (query headers : List (String × String)) (wid now : String) :
    String × List EngineCall :=
  let payload : WebhookPayload :=
    { body := body, query := query, headers := sanitizeHeaders headers, timestamp := now }
  (wid,
    [{ nspace := w.nspace, workflowType := w.name, taskQueue := w.taskQueue
       workflowId := wid, webhookArgs := [payload] }])

/-- HTTP response produced by the handler from `createHandler`. -/
structure HandlerResponse where
  status : Nat
  success : Bool
  workflowId : Option String
  deriving DecidableEq, Repr

/-- The handler from `createHandler` for route `r`: it dispatches the
run unconditionally (no credential check and no look at `isRunning`) and
converts a dispatch failure into a 500 response.  `engineOk` tells
whether `client.workflow.start` succeeded. -/
def handleRequest (r : Route) (req : HttpRequest) (wid now : String)
    (engineOk : Bool) : HandlerResponse × List EngineCall :=
  let (workflowId, calls) :=
    webhookStartWorkflow r.workflow req.body req.query req.headers wid now
  if engineOk then
    ({ status := 200, success := true, workflowId := some workflowId }, calls)
  else
    ({ status := 500, success := false, workflowId := none }, calls)

/-- Express route resolution on the shared router: first registered
route whose method and path match. -/
def findRoute (g : WebhookServerState) (method : HttpMethod) (path : String) :
    Option Route :=
  g.routes.find? (fun r => r.method = method ∧ r.path = path)

/-! ## Polling trigger (`src/triggers/polling.trigger.ts`) -/

/-- `PollingTriggerConfigSchema` from `src/types`. -/
structure PollingTriggerConfig where
  intervalMs : Nat
  endpoint : Option String
  deriving DecidableEq, Repr

/-- A JSON value as produced by `response.json()`, with just enough
structure to evaluate the truthiness test of `shouldTrigger`. -/

inductive JsonData where
  | jnull
  | jbool (b : Bool)
  | jnum (n : Int)
  | jstr (s : String)
  | jarr (elems : List JsonData)
  | jobj (fields : List (String × JsonData))

/-- JavaScript truthiness of a JSON value (`Boolean(data)`). -/
def jsTruthy : JsonData → Bool
  | .jnull => false
  | .jbool b => b
  | .jnum n => n ≠ 0
  | .jstr s => s ≠ ""
  | .jarr _ => true
  | .jobj _ => true

/-- `Object.keys(data).length` for a JSON value (string indices count as
keys in JavaScript; numbers, booleans and null have none). -/
def jsKeyCount : JsonData → Nat
  | .jobj fields => fields.length
  | .jstr s => s.length
  | .jarr elems => elems.length
  | _ => 0

/-- Outcome of `fetch(endpoint)` followed by `response.json()`:
either some step threw, or a response with its `ok` flag and body. -/
inductive FetchOutcome where
  | threw
  | response (ok : Bool) (data : JsonData)

/-- `PollingTrigger.shouldTrigger`: with an endpoint configured, an ok
response fires iff the body is truthy and non-empty; a thrown fetch is
caught and logged, a non-ok response is ignored — both fall through to
the final `return { trigger: true }` that also serves the
endpoint-less case.  Returns (fire?, data handed to the workflow). -/
def shouldTrigger (cfg : PollingTriggerConfig) (outcome : FetchOutcome) :
    Bool × Option JsonData :=
  match cfg.endpoint with
  | some _ =>
      match outcome with
      | .threw => (true, none)
      | .response ok data =>
          if ok then
            let shouldStart :=
              jsTruthy data &&
                (match data with
                 | .jarr elems => decide (elems.length > 0)
                 | _ => decide (jsKeyCount data > 0))
            (shouldStart, some data)
          else (true, none)
  | none => (true, none)

/-- `PollingTrigger.startWorkflow` as an engine call: args are `[data]`
when the probe fetched data, `[]` otherwise. -/
structure PollEngineCall where
  nspace : String
  workflowType : String
  taskQueue : String
  workflowId : String
  pollArgs : List JsonData

/-- `PollingTrigger.poll`: one timer tick — check, then start a run when
the check fired; every error is caught, so the tick never clears the
interval. -/
def poll (w : RegisteredWorkflow) (cfg : PollingTriggerConfig)
    (outcome : FetchOutcome) (wid : String) : List PollEngineCall :=
  let (fire, data) := shouldTrigger cfg outcome
  if fire then
    [{ nspace := w.nspace, workflowType := w.name, taskQueue := w.taskQueue
       workflowId := wid
       pollArgs := match data with | some d => [d] | none => [] }]
  else []

/-- Per-instance state of a `PollingTrigger` (`intervalHandle` records
the live timer). -/
structure PollingTriggerState where
  workflow : RegisteredWorkflow
  cfg : PollingTriggerConfig
  isRunning : Bool
  intervalHandle : Option Nat
  deriving DecidableEq, Repr

/-- `PollingTrigger.start`: early-return when running; otherwise set the
flag, run one immediate poll and install the interval timer
(`timerId` abstracts the `setInterval` handle). -/
def pollingStart (t : PollingTriggerState) (outcome : FetchOutcome)
    (wid : String) (timerId : Nat) : PollingTriggerState × List PollEngineCall :=
  if t.isRunning then (t, [])
  else
    ({ t with isRunning := true, intervalHandle := some timerId },
      poll t.workflow t.cfg outcome wid)

/-! ## Manual trigger (`src/triggers/manual.trigger.ts`) -/

/-- `StartWorkflowOptions` from `src/types` (args and memo are opaque to
the trigger logic; only `workflowId` influences it). -/
structure StartWorkflowOptions where
  workflowId : Option String
  deriving DecidableEq, Repr

structure ManualTriggerState where
  workflow : RegisteredWorkflow
  isRunning : Bool
  deriving DecidableEq, Repr

/-- `ManualTrigger.start` — only flips the flag. -/
def manualStart (t : ManualTriggerState) : ManualTriggerState :=
  if t.isRunning then t else { t with isRunning := true }

/-- `ManualTrigger.stop` — only flips the flag. -/
def manualStop (t : ManualTriggerState) : ManualTriggerState :=
  if ¬ t.isRunning then t else { t with isRunning := false }

/-- A `client.workflow.start` invocation made by the manual trigger. -/
structure ManualEngineCall where
  nspace : String
  workflowType : String
  taskQueue : String
  workflowId : String
  deriving DecidableEq, Repr

/-- `ManualTrigger.execute`: throws `... is not running` before the
execution-engine client is even obtained when the trigger is not
running; otherwise starts a run (id from the options or the generator)
and returns its id.  The second component lists the engine calls
made. -/
def manualExecute (t : ManualTriggerState) (opts : StartWorkflowOptions)
    (genId : String) : Except String String × List ManualEngineCall :=
  if ¬ t.isRunning then
    (.error ("Manual trigger for " ++ t.workflow.name ++ " is not running"), [])
  else
    let wid := opts.workflowId.getD genId
    (.ok wid,
      [{ nspace := t.workflow.nspace, workflowType := t.workflow.name
         taskQueue := t.workflow.taskQueue, workflowId := wid }])

/-- `ManualTrigger.executeAndWait`: same guard; on success blocks on
`handle.result()`, whose value the engine supplies (`engineResult`). -/
def manualExecuteAndWait (t : ManualTriggerState) (opts : StartWorkflowOptions)
    (genId : String) (engineResult : String) :
    Except String String × List ManualEngineCall :=
  if ¬ t.isRunning then
    (.error ("Manual trigger for " ++ t.workflow.name ++ " is not running"), [])
  else
    let wid := opts.workflowId.getD genId
    (.ok engineResult,
      [{ nspace := t.workflow.nspace, workflowType := t.workflow.name
         taskQueue := t.workflow.taskQueue, workflowId := wid }])

/-! ## Schedule trigger (`src/triggers/schedule.trigger.ts`)

Only the lifecycle guard matters for the claims; the engine's schedule
store is a map from schedule id to spec.  `create` on an existing id
reports "already exists", which the trigger resolves by an in-place
update. -/

structure ScheduleSpec where
  cronExpression : Option String
  intervalMs : Option Nat
  deriving DecidableEq, Repr

structure ScheduleTriggerState where
  workflow : RegisteredWorkflow
  cfg : ScheduleSpec
  isRunning : Bool
  deriving DecidableEq, Repr

/-- The engine-side schedule table (schedule id to spec). -/
def ScheduleStore : Type := List (String × ScheduleSpec)

/-- `ScheduleTrigger.start`: early-return when running; otherwise create
the schedule, falling back to update-in-place when it already exists,
and set the flag. -/
def scheduleStart (t : ScheduleTriggerState) (store : ScheduleStore) :
    ScheduleTriggerState × ScheduleStore :=
  if t.isRunning then (t, store)
  else
    let sid := "schedule-" ++ t.workflow.name
    ({ t with isRunning := true }, mapSet store sid t.cfg)

/-! ## Worker pool (`src/workers/manager.ts`) -/

/-- `ManagedWorker`: the `worker` field is `null` until materialized
(worker handles are abstracted as numbers handed out by the caller);
`runActive` models a non-null `runPromise`. -/
structure ManagedWorker where
  workerId : Option Nat
  runActive : Bool
  nspace : String
  taskQueue : String
  workflows : List String
  deriving DecidableEq, Repr

/-- `WorkerManager.workers`. -/
def WorkerTable : Type := List (String × ManagedWorker)

/-- `WorkerManager.registerWorkflow`: append the name to an existing
group's set unless already present; otherwise create the group with the
handle absent. -/
def registerWorkflow (table : WorkerTable) (w : RegisteredWorkflow) : WorkerTable :=
  let key := getWorkerKey w.nspace w.taskQueue
  match mapLookup table key with
  | some mw =>
      if w.name ∈ mw.workflows then table
      else mapSet table key { mw with workflows := mw.workflows ++ [w.name] }
  | none =>
      mapSet table key
        { workerId := none, runActive := false, nspace := w.nspace
          taskQueue := w.taskQueue, workflows := [w.name] }

/-- `WorkerManager.restartWorker`: no-op unless a materialized worker
exists for the key; otherwise shut the worker down, await its run, clear
the handle, and re-materialize (fresh handle `freshId`).  `createOk`
tells whether `Worker.create` succeeded; on failure the error propagates
with the handle left cleared (second component `true` means an error was
thrown). -/
def restartWorker (table : WorkerTable) (nspace taskQueue : String)
    (freshId : Nat) (createOk : Bool) : WorkerTable × Bool :=
  let key := getWorkerKey nspace taskQueue
  match mapLookup table key with
  | none => (table, false)
  | some mw =>
      match mw.workerId with
      | none => (table, false)
      | some _ =>
          let cleared := { mw with workerId := (none : Option Nat), runActive := false }
          if createOk then
            (mapSet table key { cleared with workerId := some freshId, runActive := true },
              false)
          else
            (mapSet table key cleared, true)

/-! ## Definition watcher (`src/services/watcher.ts`, `src/services/minio.ts`)

The artifact store enters as an environment: the listed names, the
latest-version pointer per name, the metadata per (name, version) and
whether the bundle download succeeds.  `sync` is the diff algorithm of
`WorkflowWatcher.sync` as a pure function of this environment and the
tracked table. -/

/-- `WorkflowMetadata` from `src/services/minio.ts` (deploy metadata
fields that the watcher does not read are omitted). -/
structure WorkflowMetadata where
  name : String
  version : String
  nspace : String
  taskQueue : String
  triggerType : TriggerType
  deriving DecidableEq, Repr

/-- `TrackedWorkflow` from `src/services/watcher.ts`. -/
structure TrackedWorkflow where
  name : String
  version : String
  metadata : WorkflowMetadata
  localPath : String
  deriving DecidableEq, Repr

/-- `WorkflowWatcher.toRegisteredWorkflow` — note it copies the
metadata's own name. -/
def toRegisteredWorkflow (t : TrackedWorkflow) : RegisteredWorkflow :=
  { name := t.metadata.name, nspace := t.metadata.nspace
    taskQueue := t.metadata.taskQueue, triggerType := t.metadata.triggerType }

/-- The artifact store as seen through `listDeployedWorkflows`,
`getLatestVersion`, `getWorkflowMetadata` and `downloadWorkflow` during
one sync cycle. -/
structure MinioEnv where
  remoteNames : List String
  latest : String → Option String
  metadata : String → String → Option WorkflowMetadata
  downloadOk : String → String → Bool

/-- `WorkflowWatcher.trackedWorkflows`. -/
def TrackedTable : Type := List (String × TrackedWorkflow)

/-- `WorkflowWatcher.downloadAndTrack`: `none` (with the table
untouched) when the metadata is missing or the download throws;
otherwise inserts the new record and returns it. -/
def downloadAndTrack (env : MinioEnv) (dir name version : String)
    (m : TrackedTable) : Option TrackedWorkflow × TrackedTable :=
  match env.metadata name version with
  | none => (none, m)
  | some md =>
      if env.downloadOk name version then
        let t : TrackedWorkflow :=
          { name := name, version := version, metadata := md
            localPath := dir ++ "/" ++ name }
        (some t, mapSet m name t)
      else (none, m)

structure Phase1Result where
  tracked : TrackedTable
  added : List RegisteredWorkflow
  updated : List RegisteredWorkflow

/-- The first loop of `WorkflowWatcher.sync` ("check for new or updated
workflows"): walk the remote names, skipping any whose latest pointer
is unreadable, classifying the rest as new / updated / unchanged. -/
def syncPhase1 (env : MinioEnv) (dir : String) :
    List String → TrackedTable → Phase1Result
  | [], m => ⟨m, [], []⟩
  | n :: ns, m =>
      match env.latest n with
      | none => syncPhase1 env dir ns m
      | some v =>
          match mapLookup m n with
          | none =>
              match downloadAndTrack env dir n v m with
              | (some t, m') =>
                  let r := syncPhase1 env dir ns m'
                  ⟨r.tracked, toRegisteredWorkflow t :: r.added, r.updated⟩
              | (none, m') => syncPhase1 env dir ns m'
          | some tr =>
              if tr.version ≠ v then
                match downloadAndTrack env dir n v m with
                | (some t, m') =>
                    let r := syncPhase1 env dir ns m'
                    ⟨r.tracked, r.added, toRegisteredWorkflow t :: r.updated⟩
                | (none, m') => syncPhase1 env dir ns m'
              else syncPhase1 env dir ns m

structure SyncResult where
  tracked : TrackedTable
  added : List RegisteredWorkflow
  updated : List RegisteredWorkflow
  removed : List String

/-- `WorkflowWatcher.sync`: the first loop, then the removal sweep over
the (possibly grown) tracked table against the full remote name list. -/
def sync (env : MinioEnv) (dir : String) (m₀ : TrackedTable) : SyncResult :=
  let r := syncPhase1 env dir env.remoteNames m₀
  { tracked := r.tracked.filter (fun p => env.remoteNames.contains p.fst)
    added := r.added
    updated := r.updated
    removed := (mapKeys r.tracked).filter (fun n => ¬ env.remoteNames.contains n) }

/-! ## Concrete fixtures used by the witnesses -/

def witMetadata (n v : String) : WorkflowMetadata :=
  { name := n, version := v, nspace := "default", taskQueue := "q"
    triggerType := TriggerType.manual }

def witTrackedA : TrackedWorkflow :=
  { name := "A", version := "v1", metadata := witMetadata "A" "v1", localPath := "w/A" }

def witTrackedC : TrackedWorkflow :=
  { name := "C", version := "v1", metadata := witMetadata "C" "v1", localPath := "w/C" }

/-- Store for the C1 witness: remote `A` (moved to v2) and `B` (new);
locally `A` (at v1) and `C` (gone remotely). -/
def witEnv : MinioEnv :=
  { remoteNames := ["A", "B"]
    latest := fun n => if n = "A" then some "v2" else
      if n = "B" then some "v1" else none
    metadata := fun n v => some (witMetadata n v)
    downloadOk := fun _ _ => true }

def witTracked : TrackedTable := [("A", witTrackedA), ("C", witTrackedC)]

/-- Store for the C10 witness: remote lists `A` and `X`, but the latest
pointer of `X` is unreadable; `X` is already tracked at v1. -/
def witEnvX : MinioEnv :=
  { remoteNames := ["A", "X"]
    latest := fun n => if n = "A" then some "v1" else none
    metadata := fun n v => some (witMetadata n v)
    downloadOk := fun _ _ => true }

def witTrackedX : TrackedWorkflow :=
  { name := "X", version := "v1", metadata := witMetadata "X" "v1", localPath := "w/X" }

def witTrackedTblX : TrackedTable := [("X", witTrackedX)]

/-! ## Fixtures for the trigger/worker claims -/

def witWorkflow1 : RegisteredWorkflow :=
  { name := "orders", nspace := "default", taskQueue := "order-queue"
    triggerType := TriggerType.webhook }

def witWorkflow2 : RegisteredWorkflow :=
  { name := "audit", nspace := "default", taskQueue := "audit-queue"
    triggerType := TriggerType.webhook }

def emptyServer : WebhookServerState :=
  { routes := [], registeredTriggers := 0, serverUp := false }

/-- A webhook config protected by a bearer token (mirrors the README's
"Bearer Token" example). -/
def witAuthCfg : WebhookTriggerConfig :=
  { path := "/orders/process", method := HttpMethod.post
    auth := some { scheme := AuthScheme.bearer, token := "my-secret-token"
                   headerName := none } }

def c2Trigger : WebhookTriggerState :=
  { workflow := witWorkflow1, cfg := witAuthCfg, isRunning := false }

def c2Server : WebhookServerState := (webhookStart c2Trigger emptyServer).2

/-- A request to the protected route carrying no credentials at all. -/
def c2Request : HttpRequest :=
  { method := HttpMethod.post, path := "/orders/process", body := "orderbody"
    query := [], headers := [("content-type", "application/json")] }

def c2Route : Route :=
  { method := HttpMethod.post, path := "/orders/process"
    workflow := witWorkflow1, cfg := witAuthCfg }

def c3Workflow : RegisteredWorkflow :=
  { name := "poller", nspace := "default", taskQueue := "poll-q"
    triggerType := TriggerType.polling }

def c3Cfg : PollingTriggerConfig :=
  { intervalMs := 60000, endpoint := some "https://api.example.com/pending-items" }

/-- One poll timer tick on the trigger state: `poll` catches every
error, so the tick never alters the trigger state (in particular the
interval handle stays installed). -/
def pollTick (t : PollingTriggerState) (outcome : FetchOutcome) (wid : String) :
    PollingTriggerState × List PollEngineCall :=
  (t, poll t.workflow t.cfg outcome wid)

def c3Running : PollingTriggerState :=
  { workflow := c3Workflow, cfg := c3Cfg, isRunning := true, intervalHandle := some 1 }

def c4Cfg : WebhookTriggerConfig :=
  { path := "/orders", method := HttpMethod.post, auth := none }

def c4Trig1 : WebhookTriggerState :=
  { workflow := witWorkflow1, cfg := c4Cfg, isRunning := false }

def c4Trig2 : WebhookTriggerState :=
  { workflow := witWorkflow2, cfg := c4Cfg, isRunning := false }

def c4Server2 : WebhookServerState :=
  (webhookStart c4Trig2 (webhookStart c4Trig1 emptyServer).2).2

def c4WitServer : WebhookServerState := (webhookStart c4Trig1 emptyServer).2

def c5Worker1 : ManagedWorker :=
  { workerId := some 1, runActive := true, nspace := "default"
    taskQueue := "order-queue", workflows := ["orders"] }

def c5Worker2 : ManagedWorker :=
  { workerId := some 2, runActive := true, nspace := "default"
    taskQueue := "audit-queue", workflows := ["audit"] }

def c5Table : WorkerTable :=
  [("default:order-queue", c5Worker1), ("default:audit-queue", c5Worker2)]

def c5Unmat : ManagedWorker :=
  { workerId := none, runActive := false, nspace := "n2", taskQueue := "q2"
    workflows := ["w2"] }

def c5Table2 : WorkerTable := [("n2:q2", c5Unmat)]

/-- The "handle updated workflows" loop of `handleWorkflowChanges`:
restart the worker of each updated definition's (namespace, queue) key
in order (each restart consumes a fresh handle id and a `Worker.create`
outcome). -/
def handleUpdatedWorkflows : WorkerTable → List (RegisteredWorkflow × Nat × Bool) →
    WorkerTable
  | table, [] => table
  | table, (w, freshId, createOk) :: rest =>
      handleUpdatedWorkflows (restartWorker table w.nspace w.taskQueue freshId createOk).1
        rest

def c8Trigger : ManualTriggerState :=
  { workflow := witWorkflow1, isRunning := false }

def c9Cfg : WebhookTriggerConfig :=
  { path := "/orders", method := HttpMethod.post, auth := none }

def c9Trigger : WebhookTriggerState :=
  { workflow := witWorkflow1, cfg := c9Cfg, isRunning := true }

def c9Route : Route :=
  { method := HttpMethod.post, path := "/orders", workflow := witWorkflow1
    cfg := c9Cfg }

def c9OtherRoute : Route :=
  { method := HttpMethod.get, path := "/audit", workflow := witWorkflow2
    cfg := { path := "/audit", method := HttpMethod.get, auth := none } }

def c9Server : WebhookServerState :=
  { routes := [c9Route, c9OtherRoute], registeredTriggers := 2, serverUp := true }

def c9Request : HttpRequest :=
  { method := HttpMethod.post, path := "/orders", body := "b", query := []
    headers := [] }

theorem mapLookup_set_self {α : Type} (m : List (String × α)) (k : String) (v : α) :
    mapLookup (mapSet m k v) k = some v := by
  induction m with
  | nil => simp [mapSet, mapLookup]
  | cons hd tl ih =>
      obtain ⟨k', v'⟩ := hd
      by_cases h : k' = k
      · simp [mapSet, h, mapLookup]
      · simp [mapSet, h, mapLookup, ih]

theorem mapKeys_nil {α : Type} : mapKeys ([] : List (String × α)) = [] := rfl

theorem mapKeys_cons {α : Type} (k : String) (v : α) (m : List (String × α)) :
    mapKeys ((k, v) :: m) = k :: mapKeys m := rfl

theorem mapLookup_set_ne {α : Type} (m : List (String × α)) (k k' : String) (v : α)
    (h : k' ≠ k) : mapLookup (mapSet m k v) k' = mapLookup m k' := by
  induction m with
  | nil => simp [mapSet, mapLookup, Ne.symm h]
  | cons hd tl ih =>
      obtain ⟨k₀, v₀⟩ := hd
      by_cases hk : k₀ = k
      · subst hk
        simp [mapSet, mapLookup, Ne.symm h]
      · simp [mapSet, hk, mapLookup, ih]

theorem mem_mapKeys_set {α : Type} (m : List (String × α)) (k k' : String) (v : α) :
    k' ∈ mapKeys (mapSet m k v) ↔ k' ∈ mapKeys m ∨ k' = k := by
  induction m with
  | nil => simp [mapSet, mapKeys_cons, mapKeys_nil]
  | cons hd tl ih =>
      obtain ⟨k₀, v₀⟩ := hd
      by_cases hk : k₀ = k
      · subst hk
        simp [mapSet, mapKeys_cons, List.mem_cons]
        tauto
      · simp [mapSet, hk, mapKeys_cons, List.mem_cons, ih]
        tauto

theorem mapLookup_isSome_iff_mem_keys {α : Type} (m : List (String × α)) (k : String) :
    (mapLookup m k).isSome ↔ k ∈ mapKeys m := by
  induction m with
  | nil => simp [mapLookup, mapKeys_nil]
  | cons hd tl ih =>
      obtain ⟨k₀, v₀⟩ := hd
      by_cases hk : k₀ = k
      · simp [mapLookup, hk, mapKeys_cons]
      · simp only [mapLookup, if_neg hk, mapKeys_cons, List.mem_cons, ih]
        have : ¬ k = k₀ := fun hh => hk hh.symm
        tauto

/-- Characterization of the first sync loop when every remote lookup and
download succeeds: the added names are exactly the untracked remote
names, the updated names exactly the tracked ones whose version moved,
the final table agrees with the initial one outside the processed names,
and its keys are the initial keys plus the added names. -/
theorem syncPhase1_spec (env : MinioEnv) (dir : String)
    (hmeta : ∀ n v, (env.metadata n v).isSome)
    (hname : ∀ n v md, env.metadata n v = some md → md.name = n)
    (hdl : ∀ n v, env.downloadOk n v = true) :
    ∀ (ns : List String) (m : TrackedTable), ns.Nodup →
      (∀ n ∈ ns, (env.latest n).isSome) →
      (∀ x, x ∈ (syncPhase1 env dir ns m).added.map RegisteredWorkflow.name ↔
         x ∈ ns ∧ mapLookup m x = none) ∧
      (∀ x, x ∈ (syncPhase1 env dir ns m).updated.map RegisteredWorkflow.name ↔
         x ∈ ns ∧ ∃ tr, mapLookup m x = some tr ∧ env.latest x ≠ some tr.version) ∧
      (∀ k, k ∉ ns → mapLookup (syncPhase1 env dir ns m).tracked k = mapLookup m k) ∧
      (∀ k, k ∈ mapKeys (syncPhase1 env dir ns m).tracked ↔
         k ∈ mapKeys m ∨ (k ∈ ns ∧ mapLookup m k = none)) := by
  intro ns
  induction ns with
  | nil =>
      intro m _ _
      refine ⟨?_, ?_, ?_, ?_⟩ <;> intro x <;> simp [syncPhase1]
  | cons n ns ih =>
      intro m hnd hlat
      have hn : n ∉ ns := (List.nodup_cons.mp hnd).1
      have hnd' : ns.Nodup := (List.nodup_cons.mp hnd).2
      have hlatn : (env.latest n).isSome := hlat n (List.mem_cons_self n ns)
      obtain ⟨v, hv⟩ := Option.isSome_iff_exists.mp hlatn
      have hlatns : ∀ x ∈ ns, (env.latest x).isSome :=
        fun x hx => hlat x (List.mem_cons_of_mem n hx)
      obtain ⟨md, hmd⟩ := Option.isSome_iff_exists.mp (hmeta n v)
      have hmdname := hname n v md hmd
      cases hl : mapLookup m n with
      | none =>
          have hres : syncPhase1 env dir (n :: ns) m =
              ⟨(syncPhase1 env dir ns
                  (mapSet m n ⟨n, v, md, dir ++ "/" ++ n⟩)).tracked,
               toRegisteredWorkflow ⟨n, v, md, dir ++ "/" ++ n⟩ ::
                 (syncPhase1 env dir ns
                   (mapSet m n ⟨n, v, md, dir ++ "/" ++ n⟩)).added,
               (syncPhase1 env dir ns
                 (mapSet m n ⟨n, v, md, dir ++ "/" ++ n⟩)).updated⟩ := by
            simp [syncPhase1, hv, hl, downloadAndTrack, hmd, hdl n v]
          obtain ⟨A1, A2, A3, A4⟩ :=
            ih (mapSet m n ⟨n, v, md, dir ++ "/" ++ n⟩) hnd' hlatns
          rw [hres]
          refine ⟨?_, ?_, ?_, ?_⟩
          · intro x
            by_cases hx : x = n
            · subst hx
              simp [toRegisteredWorkflow, hmdname, hl]
            · have htr := mapLookup_set_ne m n x ⟨n, v, md, dir ++ "/" ++ n⟩ hx
              simp only [List.map_cons, List.mem_cons, toRegisteredWorkflow, A1, htr]
              simp [hmdname, hx]
          · intro x
            by_cases hx : x = n
            · subst hx
              simp only [A2]
              simp [hl, hn]
            · have htr := mapLookup_set_ne m n x ⟨n, v, md, dir ++ "/" ++ n⟩ hx
              simp only [A2, htr]
              simp [hx]
          · intro k hk
            have hk1 : k ∉ ns := fun hh => hk (List.mem_cons_of_mem n hh)
            have hk2 : k ≠ n := fun hh => hk (hh ▸ List.mem_cons_self n ns)
            rw [A3 k hk1, mapLookup_set_ne m n k _ hk2]
          · intro k
            by_cases hk : k = n
            · subst hk
              simp only [A4, mem_mapKeys_set]
              simp [hl]
            · have htr := mapLookup_set_ne m n k ⟨n, v, md, dir ++ "/" ++ n⟩ hk
              simp only [A4, mem_mapKeys_set, htr]
              simp [hk]
      | some tr =>
          by_cases htv : tr.version = v
          · have hres : syncPhase1 env dir (n :: ns) m = syncPhase1 env dir ns m := by
              simp [syncPhase1, hv, hl, htv]
            obtain ⟨A1, A2, A3, A4⟩ := ih m hnd' hlatns
            rw [hres]
            refine ⟨?_, ?_, ?_, ?_⟩
            · intro x
              by_cases hx : x = n
              · subst hx
                simp only [A1]
                simp [hl, hn]
              · simp only [A1]
                simp [hx]
            · intro x
              by_cases hx : x = n
              · subst hx
                simp only [A2]
                simp [hl, hn, hv, htv]
              · simp only [A2]
                simp [hx]
            · intro k hk
              exact A3 k (fun hh => hk (List.mem_cons_of_mem n hh))
            · intro k
              by_cases hk : k = n
              · subst hk
                have hkm : k ∈ mapKeys m :=
                  (mapLookup_isSome_iff_mem_keys m k).mp (by simp [hl])
                simp only [A4]
                simp [hkm]
              · simp only [A4]
                simp [hk]
          · have hres : syncPhase1 env dir (n :: ns) m =
                ⟨(syncPhase1 env dir ns
                    (mapSet m n ⟨n, v, md, dir ++ "/" ++ n⟩)).tracked,
                 (syncPhase1 env dir ns
                   (mapSet m n ⟨n, v, md, dir ++ "/" ++ n⟩)).added,
                 toRegisteredWorkflow ⟨n, v, md, dir ++ "/" ++ n⟩ ::
                   (syncPhase1 env dir ns
                     (mapSet m n ⟨n, v, md, dir ++ "/" ++ n⟩)).updated⟩ := by
              simp [syncPhase1, hv, hl, htv, downloadAndTrack, hmd, hdl n v]
            obtain ⟨A1, A2, A3, A4⟩ :=
              ih (mapSet m n ⟨n, v, md, dir ++ "/" ++ n⟩) hnd' hlatns
            rw [hres]
            refine ⟨?_, ?_, ?_, ?_⟩
            · intro x
              by_cases hx : x = n
              · subst hx
                simp only [A1]
                simp [hl, hn]
              · have htr := mapLookup_set_ne m n x ⟨n, v, md, dir ++ "/" ++ n⟩ hx
                simp only [A1, htr]
                simp [hx]
            · intro x
              by_cases hx : x = n
              · have hleft : x ∈ (toRegisteredWorkflow ⟨n, v, md, dir ++ "/" ++ n⟩ ::
                    (syncPhase1 env dir ns
                      (mapSet m n ⟨n, v, md, dir ++ "/" ++ n⟩)).updated).map
                      RegisteredWorkflow.name := by
                  simp [toRegisteredWorkflow, hmdname, hx]
                have hright : x ∈ n :: ns ∧ ∃ tr₀, mapLookup m x = some tr₀ ∧
                    env.latest x ≠ some tr₀.version := by
                  refine ⟨by simp [hx], tr, by rw [hx]; exact hl, ?_⟩
                  rw [hx, hv]
                  intro hh
                  exact htv (Option.some.inj hh).symm
                exact iff_of_true hleft hright
              · have htr := mapLookup_set_ne m n x ⟨n, v, md, dir ++ "/" ++ n⟩ hx
                simp only [List.map_cons, List.mem_cons, toRegisteredWorkflow, A2, htr]
                simp [hmdname, hx]
            · intro k hk
              have hk1 : k ∉ ns := fun hh => hk (List.mem_cons_of_mem n hh)
              have hk2 : k ≠ n := fun hh => hk (hh ▸ List.mem_cons_self n ns)
              rw [A3 k hk1, mapLookup_set_ne m n k _ hk2]
            · intro k
              by_cases hk : k = n
              · subst hk
                have hkm : k ∈ mapKeys m :=
                  (mapLookup_isSome_iff_mem_keys m k).mp (by simp [hl])
                simp only [A4, mem_mapKeys_set]
                simp [hkm]
              · have htr := mapLookup_set_ne m n k ⟨n, v, md, dir ++ "/" ++ n⟩ hk
                simp only [A4, mem_mapKeys_set, htr]
                simp [hk]

/-- A name whose latest pointer is unreadable is never written to the
tracked table by the first sync loop (only processed names with a
readable pointer are `set`). -/
theorem syncPhase1_lookup_of_latest_none (env : MinioEnv) (dir : String)
    (k : String) (hk : env.latest k = none) :
    ∀ (ns : List String) (m : TrackedTable),
      mapLookup (syncPhase1 env dir ns m).tracked k = mapLookup m k := by
  intro ns
  induction ns with
  | nil => intro m; simp [syncPhase1]
  | cons n ns ih =>
      intro m
      have hkn : ∀ t : TrackedWorkflow, env.latest n = some t.version ∨ True → k ≠ n →
          mapLookup (mapSet m n t) k = mapLookup m k :=
        fun t _ hne => mapLookup_set_ne m n k t hne
      cases hv : env.latest n with
      | none => simp [syncPhase1, hv, ih]
      | some v =>
          have hne : k ≠ n := fun hh => by rw [hh, hv] at hk; cases hk
          cases hl : mapLookup m n with
          | none =>
              cases hmd : env.metadata n v with
              | none => simp [syncPhase1, hv, hl, downloadAndTrack, hmd, ih]
              | some md =>
                  cases hdl : env.downloadOk n v with
                  | false => simp [syncPhase1, hv, hl, downloadAndTrack, hmd, hdl, ih]
                  | true =>
                      simp only [syncPhase1, hv, hl, downloadAndTrack, hmd, hdl,
                        if_true]
                      rw [ih, mapLookup_set_ne m n k _ hne]
          | some tr =>
              by_cases htv : tr.version = v
              · simp [syncPhase1, hv, hl, htv, ih]
              · cases hmd : env.metadata n v with
                | none => simp [syncPhase1, hv, hl, htv, downloadAndTrack, hmd, ih]
                | some md =>
                    cases hdl : env.downloadOk n v with
                    | false =>
                        simp [syncPhase1, hv, hl, htv, downloadAndTrack, hmd, hdl, ih]
                    | true =>
                        simp only [syncPhase1, hv, hl, htv, downloadAndTrack, hmd, hdl,
                          ite_not, if_false, if_true]
                        rw [ih, mapLookup_set_ne m n k _ hne]

/-- Every name emitted as added or updated by the first sync loop has a
readable latest pointer (it is the processed name itself, since the
stored metadata carries the requested name). -/
theorem syncPhase1_emitted_latest_isSome (env : MinioEnv) (dir : String)
    (hname : ∀ n v md, env.metadata n v = some md → md.name = n) :
    ∀ (ns : List String) (m : TrackedTable) (x : String),
      (x ∈ (syncPhase1 env dir ns m).added.map RegisteredWorkflow.name ∨
        x ∈ (syncPhase1 env dir ns m).updated.map RegisteredWorkflow.name) →
      (env.latest x).isSome := by
  intro ns
  induction ns with
  | nil => intro m x hx; simp [syncPhase1] at hx
  | cons n ns ih =>
      intro m x hx
      cases hv : env.latest n with
      | none =>
          rw [show syncPhase1 env dir (n :: ns) m = syncPhase1 env dir ns m by
            simp [syncPhase1, hv]] at hx
          exact ih m x hx
      | some v =>
          cases hl : mapLookup m n with
          | none =>
              cases hmd : env.metadata n v with
              | none =>
                  rw [show syncPhase1 env dir (n :: ns) m = syncPhase1 env dir ns m by
                    simp [syncPhase1, hv, hl, downloadAndTrack, hmd]] at hx
                  exact ih m x hx
              | some md =>
                  cases hdl : env.downloadOk n v with
                  | false =>
                      rw [show syncPhase1 env dir (n :: ns) m =
                          syncPhase1 env dir ns m by
                        simp [syncPhase1, hv, hl, downloadAndTrack, hmd, hdl]] at hx
                      exact ih m x hx
                  | true =>
                      rw [show syncPhase1 env dir (n :: ns) m =
                          ⟨(syncPhase1 env dir ns
                              (mapSet m n ⟨n, v, md, dir ++ "/" ++ n⟩)).tracked,
                            toRegisteredWorkflow ⟨n, v, md, dir ++ "/" ++ n⟩ ::
                              (syncPhase1 env dir ns
                                (mapSet m n ⟨n, v, md, dir ++ "/" ++ n⟩)).added,
                            (syncPhase1 env dir ns
                              (mapSet m n ⟨n, v, md, dir ++ "/" ++ n⟩)).updated⟩ by
                        simp [syncPhase1, hv, hl, downloadAndTrack, hmd, hdl]] at hx
                      rcases hx with hx | hx
                      · rw [List.map_cons, List.mem_cons] at hx
                        rcases hx with hx' | hx'
                        · have hxn : x = n := by
                            rw [hx']
                            simp [toRegisteredWorkflow, hname n v md hmd]
                          rw [hxn, hv]; rfl
                        · exact ih _ x (Or.inl hx')
                      · exact ih _ x (Or.inr hx)
          | some tr =>
              by_cases htv : tr.version = v
              · rw [show syncPhase1 env dir (n :: ns) m = syncPhase1 env dir ns m by
                  simp [syncPhase1, hv, hl, htv]] at hx
                exact ih m x hx
              · cases hmd : env.metadata n v with
                | none =>
                    rw [show syncPhase1 env dir (n :: ns) m =
                        syncPhase1 env dir ns m by
                      simp [syncPhase1, hv, hl, htv, downloadAndTrack, hmd]] at hx
                    exact ih m x hx
                | some md =>
                    cases hdl : env.downloadOk n v with
                    | false =>
                        rw [show syncPhase1 env dir (n :: ns) m =
                            syncPhase1 env dir ns m by
                          simp [syncPhase1, hv, hl, htv, downloadAndTrack, hmd,
                            hdl]] at hx
                        exact ih m x hx
                    | true =>
                        rw [show syncPhase1 env dir (n :: ns) m =
                            ⟨(syncPhase1 env dir ns
                                (mapSet m n ⟨n, v, md, dir ++ "/" ++ n⟩)).tracked,
                              (syncPhase1 env dir ns
                                (mapSet m n ⟨n, v, md, dir ++ "/" ++ n⟩)).added,
                              toRegisteredWorkflow ⟨n, v, md, dir ++ "/" ++ n⟩ ::
                                (syncPhase1 env dir ns
                                  (mapSet m n ⟨n, v, md, dir ++ "/" ++ n⟩)).updated⟩ by
                          simp [syncPhase1, hv, hl, htv, downloadAndTrack, hmd,
                            hdl]] at hx
                        rcases hx with hx | hx
                        · exact ih _ x (Or.inl hx)
                        · rw [List.map_cons, List.mem_cons] at hx
                          rcases hx with hx' | hx'
                          · have hxn : x = n := by
                              rw [hx']
                              simp [toRegisteredWorkflow, hname n v md hmd]
                            rw [hxn, hv]; rfl
                          · exact ih _ x (Or.inr hx')

/-- Filtering a table by a key predicate that accepts key `k` leaves the
lookup at `k` unchanged. -/
theorem mapLookup_filter_of_key_kept {α : Type} (pred : String × α → Bool)
    (k : String) (hk : ∀ v : α, pred (k, v) = true) :
    ∀ m : List (String × α), mapLookup (m.filter pred) k = mapLookup m k := by
  intro m
  induction m with
  | nil => simp
  | cons hd tl ih =>
      obtain ⟨k₀, v₀⟩ := hd
      by_cases hkk : k₀ = k
      · subst hkk
        simp [List.filter_cons, hk v₀, mapLookup]
      · cases hp : pred (k₀, v₀) with
        | true => simp [List.filter_cons, hp, mapLookup, hkk, ih]
        | false => simp [List.filter_cons, hp, mapLookup, hkk, ih]

/-- C1: for every sync cycle (when the artifact store answers every
lookup), the emitted diff satisfies added = remote minus tracked,
removed = tracked minus remote, updated = names in both whose tracked
version differs from the remote latest, and the three name sets are
pairwise disjoint. -/
theorem sync_diff_correct (env : MinioEnv) (dir : String) (m₀ : TrackedTable)
    (hnodup : env.remoteNames.Nodup)
    (hlat : ∀ n ∈ env.remoteNames, (env.latest n).isSome)
    (hmeta : ∀ n v, (env.metadata n v).isSome)
    (hname : ∀ n v md, env.metadata n v = some md → md.name = n)
    (hdl : ∀ n v, env.downloadOk n v = true) :
    (∀ x, x ∈ (sync env dir m₀).added.map RegisteredWorkflow.name ↔
        x ∈ env.remoteNames ∧ mapLookup m₀ x = none) ∧
    (∀ x, x ∈ (sync env dir m₀).updated.map RegisteredWorkflow.name ↔
        x ∈ env.remoteNames ∧
          ∃ tr, mapLookup m₀ x = some tr ∧ env.latest x ≠ some tr.version) ∧
    (∀ x, x ∈ (sync env dir m₀).removed ↔
        x ∈ mapKeys m₀ ∧ x ∉ env.remoteNames) ∧
    (∀ x, ¬ (x ∈ (sync env dir m₀).added.map RegisteredWorkflow.name ∧
        x ∈ (sync env dir m₀).updated.map RegisteredWorkflow.name)) ∧
    (∀ x, ¬ (x ∈ (sync env dir m₀).added.map RegisteredWorkflow.name ∧
        x ∈ (sync env dir m₀).removed)) ∧
    (∀ x, ¬ (x ∈ (sync env dir m₀).updated.map RegisteredWorkflow.name ∧
        x ∈ (sync env dir m₀).removed)) := by
  obtain ⟨A1, A2, A3, A4⟩ :=
    syncPhase1_spec env dir hmeta hname hdl env.remoteNames m₀ hnodup hlat
  have hsa : (sync env dir m₀).added =
      (syncPhase1 env dir env.remoteNames m₀).added := rfl
  have hsu : (sync env dir m₀).updated =
      (syncPhase1 env dir env.remoteNames m₀).updated := rfl
  have hsr : (sync env dir m₀).removed =
      (mapKeys (syncPhase1 env dir env.remoteNames m₀).tracked).filter
        (fun n => ¬ env.remoteNames.contains n) := rfl
  have hA : ∀ x, x ∈ (sync env dir m₀).added.map RegisteredWorkflow.name ↔
      x ∈ env.remoteNames ∧ mapLookup m₀ x = none := by
    intro x; rw [hsa]; exact A1 x
  have hU : ∀ x, x ∈ (sync env dir m₀).updated.map RegisteredWorkflow.name ↔
      x ∈ env.remoteNames ∧
        ∃ tr, mapLookup m₀ x = some tr ∧ env.latest x ≠ some tr.version := by
    intro x; rw [hsu]; exact A2 x
  have hR : ∀ x, x ∈ (sync env dir m₀).removed ↔
      x ∈ mapKeys m₀ ∧ x ∉ env.remoteNames := by
    intro x
    rw [hsr]
    rw [List.mem_filter]
    constructor
    · rintro ⟨hmem, hnr⟩
      have hnr' : x ∉ env.remoteNames := by simpa using hnr
      rw [A4 x] at hmem
      rcases hmem with hmem | ⟨hrr, -⟩
      · exact ⟨hmem, hnr'⟩
      · exact absurd hrr hnr'
    · rintro ⟨hmem, hnr⟩
      refine ⟨?_, by simpa using hnr⟩
      rw [A4 x]
      exact Or.inl hmem
  refine ⟨hA, hU, hR, ?_, ?_, ?_⟩
  · rintro x ⟨ha, hu⟩
    obtain ⟨-, hnone⟩ := (hA x).mp ha
    obtain ⟨-, tr, hsome, -⟩ := (hU x).mp hu
    rw [hnone] at hsome
    cases hsome
  · rintro x ⟨ha, hr⟩
    obtain ⟨hmem, -⟩ := (hA x).mp ha
    obtain ⟨-, hnr⟩ := (hR x).mp hr
    exact hnr hmem
  · rintro x ⟨hu, hr⟩
    obtain ⟨hmem, -⟩ := (hU x).mp hu
    obtain ⟨-, hnr⟩ := (hR x).mp hr
    exact hnr hmem

/-- Witness for `sync_diff_correct` on the concrete store `witEnv` /
table `witTracked`: `B` is added, `A` is updated, `C` is removed, and
`B` is not doubly classified. -/
theorem sync_diff_correct_witness :
    "B" ∈ (sync witEnv "w" witTracked).added.map RegisteredWorkflow.name ∧
    "A" ∈ (sync witEnv "w" witTracked).updated.map RegisteredWorkflow.name ∧
    "C" ∈ (sync witEnv "w" witTracked).removed ∧
    ¬ ("B" ∈ (sync witEnv "w" witTracked).added.map RegisteredWorkflow.name ∧
        "B" ∈ (sync witEnv "w" witTracked).updated.map RegisteredWorkflow.name) := by
  have h := sync_diff_correct witEnv "w" witTracked
    (by decide)
    (by intro n hn
        rcases List.mem_cons.mp hn with h | h
        · subst h; rfl
        · rcases List.mem_cons.mp h with h | h
          · subst h; rfl
          · cases h)
    (by intro n v; rfl)
    (by intro n v md hh; cases hh; rfl)
    (by intro n v; rfl)
  refine ⟨(h.1 "B").mpr ⟨by decide, by decide⟩,
    (h.2.1 "A").mpr ⟨by decide, witTrackedA, by decide, by decide⟩,
    (h.2.2.1 "C").mpr ⟨by decide, by decide⟩,
    h.2.2.2.1 "B"⟩

/-- C10: a remote name whose latest-version pointer cannot be read is
skipped by the cycle: it is neither added, updated nor removed, and its
tracked entry (if any) is left unchanged. -/
theorem sync_skips_unreadable_latest (env : MinioEnv) (dir : String)
    (m₀ : TrackedTable) (r : String)
    (hr : r ∈ env.remoteNames) (hlat : env.latest r = none)
    (hname : ∀ n v md, env.metadata n v = some md → md.name = n) :
    r ∉ (sync env dir m₀).added.map RegisteredWorkflow.name ∧
    r ∉ (sync env dir m₀).updated.map RegisteredWorkflow.name ∧
    r ∉ (sync env dir m₀).removed ∧
    mapLookup (sync env dir m₀).tracked r = mapLookup m₀ r := by
  have hsa : (sync env dir m₀).added =
      (syncPhase1 env dir env.remoteNames m₀).added := rfl
  have hsu : (sync env dir m₀).updated =
      (syncPhase1 env dir env.remoteNames m₀).updated := rfl
  have hsr : (sync env dir m₀).removed =
      (mapKeys (syncPhase1 env dir env.remoteNames m₀).tracked).filter
        (fun n => ¬ env.remoteNames.contains n) := rfl
  have hst : (sync env dir m₀).tracked =
      (syncPhase1 env dir env.remoteNames m₀).tracked.filter
        (fun p => env.remoteNames.contains p.fst) := rfl
  refine ⟨?_, ?_, ?_, ?_⟩
  · intro hx
    have := syncPhase1_emitted_latest_isSome env dir hname env.remoteNames m₀ r
      (Or.inl (hsa ▸ hx))
    rw [hlat] at this
    cases this
  · intro hx
    have := syncPhase1_emitted_latest_isSome env dir hname env.remoteNames m₀ r
      (Or.inr (hsu ▸ hx))
    rw [hlat] at this
    cases this
  · intro hx
    rw [hsr, List.mem_filter] at hx
    have hnr : ¬ r ∈ env.remoteNames := by simpa using hx.2
    exact hnr hr
  · rw [hst]
    rw [mapLookup_filter_of_key_kept _ r (by intro v; simpa using hr)]
    exact syncPhase1_lookup_of_latest_none env dir r hlat env.remoteNames m₀

/-- Witness for `sync_skips_unreadable_latest`: in `witEnvX` the name
`X` has no readable latest pointer; the cycle leaves it alone. -/
theorem sync_skips_unreadable_latest_witness :
    "X" ∉ (sync witEnvX "w" witTrackedTblX).added.map RegisteredWorkflow.name ∧
    "X" ∉ (sync witEnvX "w" witTrackedTblX).updated.map RegisteredWorkflow.name ∧
    "X" ∉ (sync witEnvX "w" witTrackedTblX).removed ∧
    mapLookup (sync witEnvX "w" witTrackedTblX).tracked "X" =
      mapLookup witTrackedTblX "X" :=
  sync_skips_unreadable_latest witEnvX "w" witTrackedTblX "X"
    (by decide) (by rfl) (by intro n v md hh; cases hh; rfl)

/-- C2 (evidence of the code bug): a webhook trigger configured with a
bearer-token auth scheme still dispatches the workflow run for a request
with no credentials — `start` registers the raw handler with no auth
middleware and `createHandler` never checks `config.auth`, so the
workflow-start call is made and the route answers 200. -/
theorem webhook_auth_not_enforced :
    findRoute c2Server HttpMethod.post "/orders/process" = some c2Route ∧
    c2Route.cfg.auth = some { scheme := AuthScheme.bearer, token := "my-secret-token"
                              headerName := none } ∧
    (handleRequest c2Route c2Request "webhook-1-a1b2c3" "2024-12-10T15:30:00Z" true).2 =
      [{ nspace := "default", workflowType := "orders", taskQueue := "order-queue"
         workflowId := "webhook-1-a1b2c3"
         webhookArgs := [{ body := "orderbody", query := []
                           headers := [("content-type", "application/json")]
                           timestamp := "2024-12-10T15:30:00Z" }] }] ∧
    (handleRequest c2Route c2Request "webhook-1-a1b2c3" "2024-12-10T15:30:00Z" true).1.status
      = 200 := by
  refine ⟨by decide, rfl, by decide, rfl⟩

/-- C3 (evidence of the code bug): when the configured probe fails —
`fetch` throws, or the response is non-ok — `shouldTrigger` falls
through to the final `return (trigger: true)`, so the cycle starts a
workflow run with no arguments (while an ok-but-empty body correctly
does not fire); the timer state is untouched either way. -/
theorem polling_probe_failure_fires :
    pollTick c3Running FetchOutcome.threw "poll-1" =
      (c3Running,
        [{ nspace := "default", workflowType := "poller", taskQueue := "poll-q"
           workflowId := "poll-1", pollArgs := [] }]) ∧
    pollTick c3Running (FetchOutcome.response false (JsonData.jobj [("items",
        JsonData.jarr [JsonData.jnum 1])])) "poll-2" =
      (c3Running,
        [{ nspace := "default", workflowType := "poller", taskQueue := "poll-q"
           workflowId := "poll-2", pollArgs := [] }]) ∧
    pollTick c3Running (FetchOutcome.response true (JsonData.jarr [])) "poll-3" =
      (c3Running, []) := by
  exact ⟨rfl, rfl, rfl⟩

/-- C4 counterexample: two different workflows claim POST `/orders`;
starting both raises nothing and leaves TWO routes for the same
(method, path) pair in the shared table — there is no registration-time
conflict detection. -/
theorem webhook_route_conflict_counterexample :
    (c4Server2.routes.filter
        (fun r => r.method = HttpMethod.post ∧ r.path = "/orders")).map
        (fun r => r.workflow.name) = ["orders", "audit"] ∧
    c4Server2.registeredTriggers = 2 := by
  exact ⟨by decide, by decide⟩

/-- Helper: `find?` on an appended list looks left first. -/
theorem find?_append_left_none {α : Type} (p : α → Bool) (l₁ l₂ : List α)
    (h : ∀ x ∈ l₁, p x = false) :
    (l₁ ++ l₂).find? p = l₂.find? p := by
  induction l₁ with
  | nil => simp
  | cons hd tl ih =>
      simp only [List.cons_append, List.find?]
      rw [h hd (List.mem_cons_self hd tl)]
      exact ih (fun x hx => h x (List.mem_cons_of_mem hd hx))

/-- C4 amended: the shared route table performs no (method, path)
conflict detection — starting a second workflow whose webhook trigger
claims an already-claimed pair silently appends a second route (no
error is raised), and dispatch selects the FIRST-registered handler, so
the second workflow's handler is shadowed. -/
theorem webhook_duplicate_route_is_silent (t₁ t₂ : WebhookTriggerState)
    (g₀ : WebhookServerState)
    (h₁ : t₁.isRunning = false) (h₂ : t₂.isRunning = false)
    (hm : t₂.cfg.method = t₁.cfg.method) (hp : t₂.cfg.path = t₁.cfg.path)
    (hg : ∀ r ∈ g₀.routes, ¬ (r.method = t₁.cfg.method ∧ r.path = t₁.cfg.path)) :
    ((webhookStart t₂ (webhookStart t₁ g₀).2).2).routes =
      g₀.routes ++
        [{ method := t₁.cfg.method, path := t₁.cfg.path
           workflow := t₁.workflow, cfg := t₁.cfg },
         { method := t₂.cfg.method, path := t₂.cfg.path
           workflow := t₂.workflow, cfg := t₂.cfg }] ∧
    findRoute (webhookStart t₂ (webhookStart t₁ g₀).2).2 t₁.cfg.method t₁.cfg.path =
      some { method := t₁.cfg.method, path := t₁.cfg.path
             workflow := t₁.workflow, cfg := t₁.cfg } := by
  have hroutes : ((webhookStart t₂ (webhookStart t₁ g₀).2).2).routes =
      g₀.routes ++
        [{ method := t₁.cfg.method, path := t₁.cfg.path
           workflow := t₁.workflow, cfg := t₁.cfg },
         { method := t₂.cfg.method, path := t₂.cfg.path
           workflow := t₂.workflow, cfg := t₂.cfg }] := by
    simp [webhookStart, h₁, h₂]
  refine ⟨hroutes, ?_⟩
  rw [findRoute, hroutes]
  rw [find?_append_left_none _ g₀.routes _ ?hnone]
  case hnone =>
    intro r hr
    have := hg r hr
    simp only [decide_eq_false_iff_not]
    exact this
  simp [List.find?]

/-- Witness for `webhook_duplicate_route_is_silent` at the concrete
conflicting pair of triggers. -/
theorem webhook_duplicate_route_is_silent_witness :
    ((webhookStart c4Trig2 (webhookStart c4Trig1 emptyServer).2).2).routes =
      [{ method := HttpMethod.post, path := "/orders"
         workflow := witWorkflow1, cfg := c4Cfg },
       { method := HttpMethod.post, path := "/orders"
         workflow := witWorkflow2, cfg := c4Cfg }] ∧
    findRoute (webhookStart c4Trig2 (webhookStart c4Trig1 emptyServer).2).2
        HttpMethod.post "/orders" =
      some { method := HttpMethod.post, path := "/orders"
             workflow := witWorkflow1, cfg := c4Cfg } := by
  have h := webhook_duplicate_route_is_silent c4Trig1 c4Trig2 emptyServer
    rfl rfl rfl rfl (by intro r hr; cases hr)
  exact ⟨h.1, h.2⟩

/-- Shared helper: `restartWorker` never touches an entry under a
different key. -/
theorem restartWorker_lookup_other (table : WorkerTable)
    (nspace taskQueue : String) (freshId : Nat) (createOk : Bool) (k : String)
    (hk : k ≠ getWorkerKey nspace taskQueue) :
    mapLookup (restartWorker table nspace taskQueue freshId createOk).1 k =
      mapLookup table k := by
  cases hmw : mapLookup table (getWorkerKey nspace taskQueue) with
  | none => simp [restartWorker, hmw]
  | some mw =>
      cases hid : mw.workerId with
      | none => simp [restartWorker, hmw, hid]
      | some w₀ =>
          cases createOk with
          | true =>
              simp only [restartWorker, hmw, hid, if_true]
              exact mapLookup_set_ne table (getWorkerKey nspace taskQueue) k _ hk
          | false =>
              simp only [restartWorker, hmw, hid, if_false]
              exact mapLookup_set_ne table (getWorkerKey nspace taskQueue) k _ hk

/-- Shared helper: the update loop leaves every key untouched that is
not the worker key of one of the updated definitions. -/
theorem handleUpdatedWorkflows_lookup_other (k : String) :
    ∀ (ws : List (RegisteredWorkflow × Nat × Bool)) (table : WorkerTable),
      (∀ p ∈ ws, getWorkerKey p.1.nspace p.1.taskQueue ≠ k) →
      mapLookup (handleUpdatedWorkflows table ws) k = mapLookup table k := by
  intro ws
  induction ws with
  | nil => intro table _; rfl
  | cons hd tl ih =>
      intro table hready
      obtain ⟨w, freshId, createOk⟩ := hd
      have h₁ : getWorkerKey w.nspace w.taskQueue ≠ k :=
        hready (w, freshId, createOk) (List.mem_cons_self _ _)
      rw [handleUpdatedWorkflows]
      rw [ih _ (fun p hp => hready p (List.mem_cons_of_mem _ hp))]
      exact restartWorker_lookup_other table w.nspace w.taskQueue freshId createOk k
        (Ne.symm h₁)

/-- C5: `restartWorker` touches only the group keyed by the given
(namespace, queue): every other key's entry (handle and workflow set) is
unchanged — also across the whole update loop of a sync cycle; with no
entry or no materialized worker for the key it is a no-op; and on the
materialized path the group keeps its workflow set and gets a fresh
handle. -/
theorem restartWorker_frame (table : WorkerTable) (nspace taskQueue : String)
    (freshId : Nat) (createOk : Bool) :
    (∀ k, k ≠ getWorkerKey nspace taskQueue →
      mapLookup (restartWorker table nspace taskQueue freshId createOk).1 k =
        mapLookup table k) ∧
    (mapLookup table (getWorkerKey nspace taskQueue) = none →
      restartWorker table nspace taskQueue freshId createOk = (table, false)) ∧
    (∀ mw, mapLookup table (getWorkerKey nspace taskQueue) = some mw →
      mw.workerId = none →
      restartWorker table nspace taskQueue freshId createOk = (table, false)) ∧
    (∀ mw w₀, mapLookup table (getWorkerKey nspace taskQueue) = some mw →
      mw.workerId = some w₀ → createOk = true →
      mapLookup (restartWorker table nspace taskQueue freshId createOk).1
          (getWorkerKey nspace taskQueue) =
        some { mw with workerId := some freshId, runActive := true }) ∧
    (∀ (ws : List (RegisteredWorkflow × Nat × Bool)) (k : String),
      (∀ p ∈ ws, getWorkerKey p.1.nspace p.1.taskQueue ≠ k) →
      mapLookup (handleUpdatedWorkflows table ws) k = mapLookup table k) := by
  refine ⟨?_, ?_, ?_, ?_, ?_⟩
  · intro k hk
    exact restartWorker_lookup_other table nspace taskQueue freshId createOk k hk
  · intro hmw
    simp [restartWorker, hmw]
  · intro mw hmw hid
    simp [restartWorker, hmw, hid]
  · intro mw w₀ hmw hid hok
    subst hok
    simp only [restartWorker, hmw, hid, if_true]
    exact mapLookup_set_self table (getWorkerKey nspace taskQueue) _
  · intro ws k hready
    exact handleUpdatedWorkflows_lookup_other k ws table hready

/-- Witness for `restartWorker_frame`: restarting `default:order-queue`
leaves the audit group untouched and re-materializes the order group
with the same workflow set; restarting an unknown key or an
unmaterialized group changes nothing. -/
theorem restartWorker_frame_witness :
    mapLookup (restartWorker c5Table "default" "order-queue" 7 true).1
        "default:audit-queue" = some c5Worker2 ∧
    mapLookup (restartWorker c5Table "default" "order-queue" 7 true).1
        "default:order-queue" =
      some { c5Worker1 with workerId := some 7, runActive := true } ∧
    restartWorker c5Table "other" "queue" 7 true = (c5Table, false) ∧
    restartWorker c5Table2 "n2" "q2" 7 true = (c5Table2, false) ∧
    mapLookup (handleUpdatedWorkflows c5Table [(witWorkflow1, 7, true)])
        "default:audit-queue" = some c5Worker2 := by
  have h₁ := restartWorker_frame c5Table "default" "order-queue" 7 true
  have h₂ := restartWorker_frame c5Table "other" "queue" 7 true
  have h₃ := restartWorker_frame c5Table2 "n2" "q2" 7 true
  refine ⟨?_, ?_, ?_, ?_, ?_⟩
  · have := h₁.1 "default:audit-queue" (by decide)
    rw [this]
    decide
  · exact h₁.2.2.2.1 c5Worker1 1 (by decide) rfl rfl
  · exact h₂.2.1 (by decide)
  · exact h₃.2.2.1 c5Unmat (by decide) rfl
  · have := h₁.2.2.2.2 [(witWorkflow1, 7, true)] "default:audit-queue"
      (by intro p hp
          rcases List.mem_cons.mp hp with h | h
          · subst h; decide
          · cases h)
    rw [this]
    decide

/-- C6: the payload forwarded by the webhook handler carries the request
headers with every `authorization` / `cookie` / `x-api-key` header
(case-insensitively) removed and all other headers kept — for every
route, hence independently of whether the route's config declares
auth. -/
theorem webhook_payload_headers_sanitized (r : Route) (req : HttpRequest)
    (wid now : String) (engineOk : Bool) :
    (handleRequest r req wid now engineOk).2 =
      [{ nspace := r.workflow.nspace, workflowType := r.workflow.name
         taskQueue := r.workflow.taskQueue, workflowId := wid
         webhookArgs := [{ body := req.body, query := req.query
                           headers := sanitizeHeaders req.headers
                           timestamp := now }] }] ∧
    (∀ k v, (k, v) ∈ sanitizeHeaders req.headers ↔
      (k, v) ∈ req.headers ∧ lowerString k ∉ sensitiveHeaders) := by
  constructor
  · cases engineOk <;> rfl
  · intro k v
    rw [sanitizeHeaders, List.mem_filter]
    simp

/-- C7: starting an already-running trigger of any variant is a no-op
that makes no external call, and registering the same definition twice
with the worker pool leaves the pool unchanged — none of these paths
can raise (each early-returns or skips the append). -/
theorem second_start_and_register_are_noops :
    (∀ (t : PollingTriggerState) (o₁ o₂ : FetchOutcome) (w₁ w₂ : String)
        (id₁ id₂ : Nat),
      pollingStart (pollingStart t o₁ w₁ id₁).1 o₂ w₂ id₂ =
        ((pollingStart t o₁ w₁ id₁).1, [])) ∧
    (∀ (t : WebhookTriggerState) (g : WebhookServerState),
      webhookStart (webhookStart t g).1 (webhookStart t g).2 =
        ((webhookStart t g).1, (webhookStart t g).2)) ∧
    (∀ (t : ScheduleTriggerState) (s : ScheduleStore),
      scheduleStart (scheduleStart t s).1 (scheduleStart t s).2 =
        ((scheduleStart t s).1, (scheduleStart t s).2)) ∧
    (∀ t : ManualTriggerState, manualStart (manualStart t) = manualStart t) ∧
    (∀ (table : WorkerTable) (w : RegisteredWorkflow),
      registerWorkflow (registerWorkflow table w) w = registerWorkflow table w) := by
  refine ⟨?_, ?_, ?_, ?_, ?_⟩
  · intro t o₁ o₂ w₁ w₂ id₁ id₂
    cases h : t.isRunning <;> simp [pollingStart, h]
  · intro t g
    cases h : t.isRunning <;> simp [webhookStart, h]
  · intro t s
    cases h : t.isRunning <;> simp [scheduleStart, h]
  · intro t
    cases h : t.isRunning <;> simp [manualStart, h]
  · intro table w
    cases hmw : mapLookup table (getWorkerKey w.nspace w.taskQueue) with
    | none =>
        have hstep : registerWorkflow table w =
            mapSet table (getWorkerKey w.nspace w.taskQueue)
              { workerId := none, runActive := false, nspace := w.nspace
                taskQueue := w.taskQueue, workflows := [w.name] } := by
          rw [registerWorkflow, hmw]
        rw [hstep, registerWorkflow,
          mapLookup_set_self table (getWorkerKey w.nspace w.taskQueue) _]
        simp
    | some mw =>
        by_cases hmem : w.name ∈ mw.workflows
        · have hstep : registerWorkflow table w = table := by
            rw [registerWorkflow, hmw]
            simp [hmem]
          rw [hstep]
          exact hstep
        · have hstep : registerWorkflow table w =
              mapSet table (getWorkerKey w.nspace w.taskQueue)
                { mw with workflows := mw.workflows ++ [w.name] } := by
            rw [registerWorkflow, hmw]
            simp [hmem]
          rw [hstep, registerWorkflow,
            mapLookup_set_self table (getWorkerKey w.nspace w.taskQueue) _]
          simp

/-- C8: a manual trigger that is not Running rejects both `execute` and
`executeAndWait` with the "not running" error, and no engine call is
made. -/
theorem manual_execute_requires_running (t : ManualTriggerState)
    (opts : StartWorkflowOptions) (genId engineResult : String)
    (h : t.isRunning = false) :
    manualExecute t opts genId =
      (Except.error ("Manual trigger for " ++ t.workflow.name ++ " is not running"),
        []) ∧
    manualExecuteAndWait t opts genId engineResult =
      (Except.error ("Manual trigger for " ++ t.workflow.name ++ " is not running"),
        []) := by
  constructor <;> simp [manualExecute, manualExecuteAndWait, h]

/-- Witness for `manual_execute_requires_running` on a concrete stopped
trigger. -/
theorem manual_execute_requires_running_witness :
    manualExecute c8Trigger { workflowId := none } "manual-1" =
      (Except.error ("Manual trigger for " ++ c8Trigger.workflow.name ++
        " is not running"), []) ∧
    manualExecuteAndWait c8Trigger { workflowId := none } "manual-1" "result" =
      (Except.error ("Manual trigger for " ++ c8Trigger.workflow.name ++
        " is not running"), []) :=
  manual_execute_requires_running c8Trigger { workflowId := none }
    "manual-1" "result" rfl

/-- C9: `WebhookTrigger.stop` only flips the flag and decrements the
shared count: while another webhook trigger keeps the shared server up,
the stopped trigger's route is still in the table, route resolution is
unchanged, and a request hitting that route still makes the
workflow-start call (the handler never consults `isRunning`). -/
theorem webhookStop_leaves_route_live (t : WebhookTriggerState)
    (g : WebhookServerState) (ht : t.isRunning = true)
    (hcount : g.registeredTriggers ≠ 1) :
    ((webhookStop t g).1).isRunning = false ∧
    ((webhookStop t g).2).routes = g.routes ∧
    ((webhookStop t g).2).serverUp = g.serverUp ∧
    ((webhookStop t g).2).registeredTriggers = g.registeredTriggers - 1 ∧
    (∀ method path, findRoute (webhookStop t g).2 method path =
      findRoute g method path) ∧
    (∀ (r : Route) (req : HttpRequest) (wid now : String) (engineOk : Bool),
      findRoute g req.method req.path = some r → r.workflow = t.workflow →
      (handleRequest r req wid now engineOk).2 ≠ []) := by
  have hno : ¬ (g.registeredTriggers - 1 = 0) := by
    intro hh
    exact hcount (by omega)
  have hstop : webhookStop t g =
      ({ t with isRunning := false },
        { g with registeredTriggers := g.registeredTriggers - 1 }) := by
    rw [webhookStop]
    simp only [ht, Bool.true_eq_false, not_false_iff]
    rw [if_neg (by simp)]
    rw [stopServer]
    rw [if_neg (by intro hh; exact hno hh.2)]
  rw [hstop]
  refine ⟨rfl, rfl, rfl, rfl, fun method path => rfl, ?_⟩
  intro r req wid now engineOk hfind hwf
  cases engineOk <;> simp [handleRequest, webhookStartWorkflow]

/-- Witness for `webhookStop_leaves_route_live`: with two registered
triggers, stopping one keeps the server and its route live, and the
route still dispatches. -/
theorem webhookStop_leaves_route_live_witness :
    ((webhookStop c9Trigger c9Server).1).isRunning = false ∧
    ((webhookStop c9Trigger c9Server).2).routes = c9Server.routes ∧
    ((webhookStop c9Trigger c9Server).2).serverUp = true ∧
    findRoute (webhookStop c9Trigger c9Server).2 HttpMethod.post "/orders" =
      some c9Route ∧
    (handleRequest c9Route c9Request "wid-1" "now" true).2 ≠ [] := by
  have h := webhookStop_leaves_route_live c9Trigger c9Server rfl (by decide)
  refine ⟨h.1, h.2.1, ?_, ?_, ?_⟩
  · rw [h.2.2.1]
    rfl
  · rw [h.2.2.2.2.1 HttpMethod.post "/orders"]
    decide
  · exact h.2.2.2.2.2 c9Route c9Request "wid-1" "now" true (by decide) rfl

end TemporalWorker
